import Mathlib

/-!
Verification of the role-based access-scoping and audit/job-tracking engine
of the NextGen-Data-Architects analytics system.

The frontend components (`audit.js`, `AuditLogSection.jsx`, `HODAssignClasses`,
`AdminETL`) are embedded directly from their JavaScript source.  The backend
engine (permission registry, assignment store, scope resolver, server-side
audit/ETL read paths) is only documented and called from the repository, so
those parts are modelled from the specification, as marked on each definition.
-/

namespace NextGen

/-- Closed enumeration of caller roles (spec §3, Identity). -/
inductive Role
  | Student
  | Staff
  | HeadOfDepartment
  | Dean
  | Senate
  | Finance
  | HumanResources
  | Analyst
  | SystemAdministrator
deriving DecidableEq, Repr

/-- Closed enumeration of named resources (spec §3, PermissionFact). -/
inductive Resource
  | Dashboard
  | Analytics
  | Reports
  | Students
  | Staff
  | FexAnalytics
  | HighSchoolAnalytics
  | Predictions
  | Profile
  | Users
  | AuditLogs
  | Etl
  | Settings
deriving DecidableEq, Repr

/-- Closed enumeration of permissions (spec §3, PermissionFact). -/
inductive Permission
  | Read
  | Write
  | Update
  | Export
  | Share
  | Delete
deriving DecidableEq, Repr

/-- Immutable (Role, Resource, Permission) triple (spec §3). -/
structure PermissionFact where
  role : Role
  resource : Resource
  permission : Permission
deriving DecidableEq, Repr

/-- Modelled from the spec: the Permission Registry's static table of
(Role, Resource, Permission) facts, "loaded once at process start; no runtime
mutation" (spec §3, §4.1).  The backend module holding the concrete table is
not part of the repository snapshot; the entries below follow the role
capabilities listed in the repository documentation (Security & RBAC section).
The exact contents are irrelevant to the fail-closed property, which holds for
triples outside the table. -/
def permissionTable : List PermissionFact :=
  [ ⟨.Student, .Dashboard, .Read⟩
  , ⟨.Student, .Profile, .Read⟩
  , ⟨.Student, .Profile, .Update⟩
  , ⟨.Staff, .Dashboard, .Read⟩
  , ⟨.Staff, .Analytics, .Read⟩
  , ⟨.Staff, .Students, .Read⟩
  , ⟨.Staff, .Profile, .Read⟩
  , ⟨.HeadOfDepartment, .Dashboard, .Read⟩
  , ⟨.HeadOfDepartment, .Analytics, .Read⟩
  , ⟨.HeadOfDepartment, .Reports, .Read⟩
  , ⟨.HeadOfDepartment, .Staff, .Read⟩
  , ⟨.HeadOfDepartment, .Staff, .Update⟩
  , ⟨.Dean, .Dashboard, .Read⟩
  , ⟨.Dean, .Analytics, .Read⟩
  , ⟨.Dean, .Reports, .Read⟩
  , ⟨.Dean, .HighSchoolAnalytics, .Read⟩
  , ⟨.Senate, .Dashboard, .Read⟩
  , ⟨.Senate, .Analytics, .Read⟩
  , ⟨.Senate, .Reports, .Read⟩
  , ⟨.Senate, .Predictions, .Read⟩
  , ⟨.Finance, .Dashboard, .Read⟩
  , ⟨.Finance, .Analytics, .Read⟩
  , ⟨.Finance, .Reports, .Read⟩
  , ⟨.HumanResources, .Dashboard, .Read⟩
  , ⟨.HumanResources, .Staff, .Read⟩
  , ⟨.HumanResources, .Staff, .Update⟩
  , ⟨.Analyst, .Dashboard, .Read⟩
  , ⟨.Analyst, .Analytics, .Read⟩
  , ⟨.Analyst, .Analytics, .Write⟩
  , ⟨.Analyst, .FexAnalytics, .Read⟩
  , ⟨.Analyst, .HighSchoolAnalytics, .Read⟩
  , ⟨.Analyst, .Predictions, .Read⟩
  , ⟨.Analyst, .Reports, .Read⟩
  , ⟨.SystemAdministrator, .Dashboard, .Read⟩
  , ⟨.SystemAdministrator, .Users, .Read⟩
  , ⟨.SystemAdministrator, .Users, .Write⟩
  , ⟨.SystemAdministrator, .Users, .Update⟩
  , ⟨.SystemAdministrator, .Users, .Delete⟩
  , ⟨.SystemAdministrator, .AuditLogs, .Read⟩
  , ⟨.SystemAdministrator, .Etl, .Read⟩
  , ⟨.SystemAdministrator, .Etl, .Write⟩
  , ⟨.SystemAdministrator, .Settings, .Read⟩
  , ⟨.SystemAdministrator, .Settings, .Update⟩
  ]

/-- Modelled from the spec: `allowed(role, resource, permission) -> bool`,
a pure membership lookup in the static table, total on all inputs (spec §4.1:
"unknown role/resource ... must return false (fail-closed), never throw"). -/
def allowed (r : Role) (x : Resource) (p : Permission) : Bool :=
  permissionTable.any fun f => decide (f = PermissionFact.mk r x p)

/-- The authenticated caller (spec §3, Identity): a role plus optional
organizational attributes; `id` is the app-user id keying the
`staff_course_assignments` relation. -/
structure Identity where
  id : Nat
  role : Role
  faculty_id : Option Nat
  department_id : Option Nat
  student_key : Option Nat
deriving DecidableEq, Repr

/-- A staff app-user row, carrying the department it belongs to. -/
structure StaffRecord where
  id : Nat
  department_id : Nat
deriving DecidableEq, Repr

/-- Modelled from the spec: the durable assignment-store state — the staff
directory and the `staff_course_assignments` relation `(app_user_id,
course_code)` (spec §3 CourseAssignment; repository doc "Staff course
assignments and HOD assign-classes"). -/
structure Store where
  staff : List StaffRecord
  assignments : List (Nat × String)
deriving DecidableEq, Repr

/-- Department of a staff identity, looked up in the staff directory. -/
def deptOf (store : Store) (sid : Nat) : Option Nat :=
  (store.staff.find? fun s => s.id == sid).map StaffRecord.department_id

/-- Modelled from the spec: `getAssignments(staff_id) -> Set<CourseCode>`;
"returns empty set (not an error) when none exist" (spec §4.2). -/
def getAssignments (store : Store) (sid : Nat) : List String :=
  (store.assignments.filter fun p => p.1 == sid).map Prod.snd

/-- Errors surfaced by the assignment-store API (spec §7 taxonomy). -/
inductive ApiError
  | Forbidden
deriving DecidableEq, Repr

/-- Authorization check for mutating a staff identity's assignments: the
acting identity must be a HeadOfDepartment whose department matches the
target staff's department (spec §4.2). -/
def canManage (actor : Identity) (store : Store) (sid : Nat) : Bool :=
  decide (actor.role = Role.HeadOfDepartment) &&
    match actor.department_id, deptOf store sid with
    | some d, some d' => d == d'
    | _, _ => false

/-- Atomic delete+insert of one staff identity's assignment rows. -/
def replaceFor (sid : Nat) (codes : List String) (l : List (Nat × String)) :
    List (Nat × String) :=
  (l.filter fun p => p.1 != sid) ++ codes.map fun c => (sid, c)

/-- Modelled from the spec: `setAssignments(staff_id, Set<CourseCode>)` — a
full transactional replace, guarded by the HeadOfDepartment same-department
check, "else fail with Forbidden" (spec §4.2; repository doc: `PUT
/api/hod/staff-assignments/<staff_id>`, "Only staff in the HOD's department
can be managed"). -/
def setAssignments (actor : Identity) (sid : Nat) (codes : List String)
    (store : Store) : Except ApiError Store :=
  if canManage actor store sid then
    Except.ok { store with assignments := replaceFor sid codes store.assignments }
  else
    Except.error ApiError.Forbidden

/-- State the caller holds after a mutation attempt: the new store on
success, the old store when the call failed. -/
def storeAfter (r : Except ApiError Store) (old : Store) : Store :=
  match r with
  | Except.ok st => st
  | Except.error _ => old

/-- Opaque output of the Scope Resolver (spec §3, ScopePredicate). -/
inductive ScopePredicate
  | Unrestricted
  | Denied
  | FacultyEq (f : Nat)
  | DepartmentEq (d : Nat)
  | CourseIn (codes : List String)
  | StudentEq (k : Nat)
deriving DecidableEq, Repr

/-- Modelled from the spec: `resolveScope(identity, resource) ->
ScopePredicate` (spec §4.3), one arm per role.  `reachable` models whether
the assignment store can be read; a failed fetch is treated fail-closed for
Staff, per the CourseAssignment invariant "a staff identity with zero
assignments has zero visible data rows ... even when the assignment store is
empty or unreachable" (spec §3) and the backend doc "if the list is empty,
staff see no data (1=0)". -/
def resolveScope (store : Store) (reachable : Bool) (ident : Identity)
    (_res : Resource) : ScopePredicate :=
  match ident.role with
  | Role.SystemAdministrator => ScopePredicate.Unrestricted
  | Role.Senate => ScopePredicate.Unrestricted
  | Role.Dean =>
      match ident.faculty_id with
      | some f => ScopePredicate.FacultyEq f
      | none => ScopePredicate.Denied
  | Role.HeadOfDepartment =>
      match ident.department_id with
      | some d => ScopePredicate.DepartmentEq d
      | none => ScopePredicate.Denied
  | Role.Staff =>
      if reachable then
        match getAssignments store ident.id with
        | [] => ScopePredicate.Denied
        | cs => ScopePredicate.CourseIn cs
      else ScopePredicate.Denied
  | Role.Student =>
      match ident.student_key with
      | some k => ScopePredicate.StudentEq k
      | none => ScopePredicate.Denied
  | Role.Finance => ScopePredicate.Unrestricted
  | Role.HumanResources => ScopePredicate.Unrestricted
  | Role.Analyst => ScopePredicate.Unrestricted

/-- The freshly initialized assignment store: staff directory and relation
both empty (the `staff_course_assignments` table is created empty at backend
startup). -/
def initialStore : Store := { staff := [], assignments := [] }

/-- JavaScript strings, modelled as character lists so every operation
computes by kernel reduction. -/
abbrev JStr := List Char

/-- JS `String.prototype.toLowerCase` on the code points used here. -/
def toLowerJS (s : JStr) : JStr := s.map Char.toLower

/-- JS `String.prototype.trim`: strip leading and trailing whitespace. -/
def trimJS (s : JStr) : JStr :=
  ((s.dropWhile Char.isWhitespace).reverse.dropWhile Char.isWhitespace).reverse

/-- JS `hay.includes(needle)`: needle occurs as a contiguous substring. -/
def includesJS : JStr → JStr → Bool
  | [], needle => needle.isEmpty
  | c :: t, needle => needle.isPrefixOf (c :: t) || includesJS t needle

/-- Body posted by `logAuditEvent` (`frontend/src/utils/audit.js`):
`resource_id` is added to the payload only when non-null and non-empty. -/
structure AuditPayload where
  action : JStr
  resource : JStr
  resource_id : Option JStr
deriving DecidableEq, Repr

/-- The outgoing audit request: payload plus the axios `timeout` option. -/
structure AuditRequestConfig where
  payload : AuditPayload
  timeoutMs : Nat
deriving DecidableEq, Repr

/-- The `timeout: 3000` axios option in `audit.js`. -/
def AUDIT_EVENT_TIMEOUT_MS : Nat := 3000

/-- From `frontend/src/utils/audit.js`: `logAuditEvent(action, resource,
resourceId)`.  Returns the request it issues, or `none` when the stored
token is absent or empty (`if (!token) return;`). -/
def logAuditEvent (token : Option JStr) (action resource : JStr)
    (resourceId : Option JStr) : Option AuditRequestConfig :=
  match token with
  | none => none
  | some t =>
      if t.isEmpty then none
      else
        some
          { payload :=
              { action := action
              , resource := resource
              , resource_id :=
                  match resourceId with
                  | none => none
                  | some s => if s.isEmpty then none else some s }
          , timeoutMs := AUDIT_EVENT_TIMEOUT_MS }

/-- Possible fates of the posted audit request. -/
inductive NetOutcome
  | delivered
  | refused
  | timedOut
deriving DecidableEq, Repr

/-- Resolution of the axios promise for one network outcome: refusal and
the 3-second timeout both reject. -/
def sendAudit (_req : AuditRequestConfig) (net : NetOutcome) : Except JStr Unit :=
  match net with
  | NetOutcome.delivered => Except.ok ()
  | NetOutcome.refused => Except.error "store unreachable".data
  | NetOutcome.timedOut => Except.error "timeout exceeded".data

/-- The full fire-and-forget call in `audit.js`: build and post the request,
then swallow any rejection (`.catch(() => {})`).  Nothing is returned to
the caller. -/
def fireAndForget (token : Option JStr) (action resource : JStr)
    (resourceId : Option JStr) (net : NetOutcome) : Unit :=
  match logAuditEvent token action resource resourceId with
  | none => ()
  | some req =>
      match sendAudit req net with
      | Except.ok _ => ()
      | Except.error _ => ()

/-- A guarded primary operation together with its client-reported audit
event: callers of `logAuditEvent` never await it, so the audit outcome does
not flow into the primary result. -/
def primaryWithAudit {α : Type} (primary : Except JStr α) (token : Option JStr)
    (action resource : JStr) (resourceId : Option JStr) (net : NetOutcome) :
    Except JStr α :=
  let _audit := fireAndForget token action resource resourceId net
  primary

/-- One audit-log row as rendered by `AuditLogSection.jsx` (fields from the
backend may be null). -/
structure LogRow where
  log_id : Option Nat
  created_at : JStr
  username : Option JStr
  role_name : Option JStr
  action : Option JStr
  resource : Option JStr
  status : Option JStr
deriving DecidableEq, Repr

/-- The hard server-side maximum on audit-log reads (spec §4.4; mirrored as
`500; // Backend max` in `AuditLogSection.loadLogs`). -/
def AUDIT_BACKEND_MAX_LIMIT : Nat := 500

/-- The dropdown choice in `AuditLogSection.jsx`: a number or `'all'`. -/
inductive ClientLimit
  | num (n : Nat)
  | all
deriving DecidableEq, Repr

/-- From `AuditLogSection.loadLogs`: the limit actually sent to the backend.
`'all'` becomes 500, values below 1 throw `Invalid limit`, values above 500
are capped at 500. -/
def requestLimit : ClientLimit → Except JStr Nat
  | ClientLimit.all => Except.ok AUDIT_BACKEND_MAX_LIMIT
  | ClientLimit.num n =>
      if n < 1 then Except.error "Invalid limit".data
      else if n > AUDIT_BACKEND_MAX_LIMIT then Except.ok AUDIT_BACKEND_MAX_LIMIT
      else Except.ok n

/-- One field test in the `filteredLogs` filter of `AuditLogSection.jsx`:
`l.f && l.f.toLowerCase().includes(term)` (null and empty fields are
falsy). -/
def fieldMatches (field : Option JStr) (term : JStr) : Bool :=
  match field with
  | none => false
  | some s => !s.isEmpty && includesJS (toLowerJS s) term

/-- The row predicate of `filteredLogs`: the lowercased term occurs in the
username, action, resource, role or status field. -/
def rowMatches (term : JStr) (l : LogRow) : Bool :=
  fieldMatches l.username term || fieldMatches l.action term ||
    fieldMatches l.resource term || fieldMatches l.role_name term ||
    fieldMatches l.status term

/-- From `AuditLogSection.jsx`: `filteredLogs` returns the fetched rows
unchanged when the search term is blank, else filters them by
`rowMatches` with the lowercased term. -/
def filteredLogs (logs : List LogRow) (searchTerm : JStr) : List LogRow :=
  if (trimJS searchTerm).isEmpty then logs
  else logs.filter (rowMatches (toLowerJS searchTerm))

/-- Modelled from the spec: the backend audit-log read path
`query(limit, search_term?)` (spec §4.4).  The records are stored
most-recent-first; the limit is clamped server-side to the hard maximum of
500, and the optional search term filters the already-limited window. -/
def auditQuery (records : List LogRow) (limit : Nat) (term : Option JStr) :
    List LogRow :=
  let limited := records.take (min limit AUDIT_BACKEND_MAX_LIMIT)
  match term with
  | none => limited
  | some t => filteredLogs limited t

/-- One pipeline-run record (spec §3, EtlRun; rendered by the ETL page). -/
structure EtlRun where
  log_file : JStr
  start_time : Nat
  duration : Nat
  success : Bool
deriving DecidableEq, Repr

/-- The 50-record cap on ETL run history (spec §4.5). -/
def ETL_RUNS_MAX : Nat := 50

/-- The `ETL_RUNS_LIMIT_OPTIONS` dropdown of the AdminETL page. -/
def ETL_RUNS_LIMIT_OPTIONS : List Nat := [5, 10, 20, 50]

/-- Modelled from the spec: `listRecentRuns(limit) -> [EtlRun]`, "capped at
50 entries regardless of requested limit; most-recent-first" (spec §4.5).
The stored run list is kept most-recent-first. -/
def listRecentRuns (runs : List EtlRun) (limit : Nat) : List EtlRun :=
  runs.take (min limit ETL_RUNS_MAX)

/-- `REFRESH_INTERVAL_MS` from the AdminETL page: 5 seconds between polls. -/
def REFRESH_INTERVAL_MS : Nat := 5000

/-- `REFRESH_AFTER_RUN_COUNT` from the AdminETL page: 12 polls, i.e. 60
seconds of polling after Run ETL. -/
def REFRESH_AFTER_RUN_COUNT : Nat := 12

/-- State of the refresh interval started by `runETL`: the `count` local
and whether the interval is still installed. -/
structure PollState where
  count : Nat
  active : Bool
deriving DecidableEq, Repr

/-- Poll state right after `trigger()` (`runETL` sets `count = 0` and
installs the interval). -/
def afterTrigger : PollState := { count := 0, active := true }

/-- One firing of the interval callback in `runETL`: while installed it
increments `count`, reloads the status (the poll, reported as the Bool),
and clears the interval once `count` reaches `REFRESH_AFTER_RUN_COUNT`. -/
def pollTick (s : PollState) : PollState × Bool :=
  if s.active then
    ({ count := s.count + 1
     , active := decide (s.count + 1 < REFRESH_AFTER_RUN_COUNT) }, true)
  else (s, false)

/-- Number of polls issued over the next `k` interval firings. -/
def pollsFired : PollState → Nat → Nat
  | _, 0 => 0
  | s, k + 1 =>
      let r := pollTick s
      (if r.2 then 1 else 0) + pollsFired r.1 k

/-- Concrete audit rows used to exercise the read-path theorems. -/
def demoLogs : List LogRow :=
  [ { log_id := some 2, created_at := "2026-02-01 10:00".data
    , username := some "admin".data, role_name := some "sysadmin".data
    , action := some "login".data, resource := some "Dashboard".data
    , status := some "success".data }
  , { log_id := some 1, created_at := "2026-01-31 09:00".data
    , username := some "jdoe".data, role_name := none
    , action := some "page_view".data, resource := some "Analytics".data
    , status := some "failure".data } ]

/-- Concrete run history (most-recent-first) used to exercise the job
tracker theorems. -/
def demoRuns : List EtlRun :=
  [ { log_file := "etl_3.log".data, start_time := 300, duration := 40, success := true }
  , { log_file := "etl_2.log".data, start_time := 200, duration := 35, success := false }
  , { log_file := "etl_1.log".data, start_time := 100, duration := 30, success := true } ]

/-- A HeadOfDepartment of department 1, acting on the store below. -/
def hodActor : Identity :=
  { id := 10, role := Role.HeadOfDepartment, faculty_id := none
  , department_id := some 1, student_key := none }

/-- A store whose staff member 5 is in department 1 and already has two
assignment rows. -/
def hodStore : Store :=
  { staff := [ { id := 5, department_id := 1 } ]
  , assignments := [(5, "CS101"), (6, "CS102")] }

/-- A HeadOfDepartment of department 1 attempting to manage staff of a
different department. -/
def crossActor : Identity :=
  { id := 11, role := Role.HeadOfDepartment, faculty_id := none
  , department_id := some 1, student_key := none }

/-- A store whose staff member 5 belongs to department 2 (not the
department of `crossActor`). -/
def crossStore : Store :=
  { staff := [ { id := 5, department_id := 2 } ]
  , assignments := [(5, "CS101")] }

/-! Helper lemmas. -/

/-- `canManage` holds exactly when the actor is a HeadOfDepartment whose
department matches the department of the target staff identity. -/
lemma canManage_iff (actor : Identity) (store : Store) (sid : Nat) :
    canManage actor store sid = true ↔
      actor.role = Role.HeadOfDepartment ∧
        ∃ d, actor.department_id = some d ∧ deptOf store sid = some d := by
  unfold canManage
  cases hdep : actor.department_id with
  | none => simp
  | some d =>
    cases hdo : deptOf store sid with
    | none => simp
    | some d' =>
      simp only [Bool.and_eq_true, decide_eq_true_eq, beq_iff_eq,
        Option.some.injEq]
      constructor
      · rintro ⟨hr, hd⟩
        exact ⟨hr, d, rfl, hd.symm⟩
      · rintro ⟨hr, e, he, he'⟩
        exact ⟨hr, he.trans he'.symm⟩

/-- Rows with the replaced key vanish from the key-complement filter. -/
lemma keyfilter_ne_eq_nil (sid : Nat) (l : List (Nat × String)) :
    ((l.filter fun p => p.1 != sid).filter fun p => p.1 == sid) = [] := by
  induction l with
  | nil => rfl
  | cons a t ih =>
    by_cases h : a.1 = sid
    · simp [List.filter_cons, h, ih]
    · simp [List.filter_cons, h, ih]

/-- All inserted rows carry the replaced key. -/
lemma keyfilter_eq_map (sid : Nat) (codes : List String) :
    ((codes.map fun c => (sid, c)).filter fun p => p.1 == sid) =
      codes.map fun c => (sid, c) := by
  induction codes with
  | nil => rfl
  | cons c t ih => simp [List.filter_cons, ih]

/-- No inserted row survives the key-complement filter. -/
lemma keyfilter_ne_map (sid : Nat) (codes : List String) :
    ((codes.map fun c => (sid, c)).filter fun p => p.1 != sid) = [] := by
  induction codes with
  | nil => rfl
  | cons c t ih => simp [List.filter_cons, ih]

/-- Filtering by the key complement is idempotent. -/
lemma filter_ne_idem (sid : Nat) (l : List (Nat × String)) :
    ((l.filter fun p => p.1 != sid).filter fun p => p.1 != sid) =
      l.filter fun p => p.1 != sid := by
  rw [List.filter_filter]
  congr 1
  funext a
  exact Bool.and_self _

/-- Reading back a replaced assignment set yields exactly the new codes. -/
lemma getAssignments_replaceFor (store : Store) (sid : Nat)
    (codes : List String) :
    getAssignments
        { store with assignments := replaceFor sid codes store.assignments }
        sid = codes := by
  unfold getAssignments replaceFor
  rw [List.filter_append, keyfilter_ne_eq_nil, keyfilter_eq_map]
  simp [List.map_map, Function.comp]

/-- Replacing twice with the same codes gives the same relation. -/
lemma replaceFor_idem (sid : Nat) (codes : List String)
    (l : List (Nat × String)) :
    replaceFor sid codes (replaceFor sid codes l) = replaceFor sid codes l := by
  unfold replaceFor
  rw [List.filter_append, filter_ne_idem, keyfilter_ne_map, List.append_nil]

/-- The client-side search filter never grows the fetched list. -/
lemma filteredLogs_length_le (logs : List LogRow) (t : JStr) :
    (filteredLogs logs t).length ≤ logs.length := by
  unfold filteredLogs
  split
  · exact Nat.le_refl _
  · exact List.length_filter_le _ _

/-- A cleared interval never fires again. -/
lemma pollsFired_inactive (c : Nat) (k : Nat) :
    pollsFired { count := c, active := false } k = 0 := by
  induction k with
  | zero => rfl
  | succ k ih => simp [pollsFired, pollTick, ih]

/-- While installed with `c` polls already issued, the interval issues
`min k (REFRESH_AFTER_RUN_COUNT - c)` further polls over the next `k`
firings. -/
lemma pollsFired_active (k : Nat) : ∀ c, c < REFRESH_AFTER_RUN_COUNT →
    pollsFired { count := c, active := true } k =
      min k (REFRESH_AFTER_RUN_COUNT - c) := by
  induction k with
  | zero => intro c hc; simp [pollsFired]
  | succ k ih =>
    intro c hc
    by_cases h2 : c + 1 < REFRESH_AFTER_RUN_COUNT
    · have hrec := ih (c + 1) h2
      simp only [pollsFired, pollTick, if_true]
      simp only [h2, decide_true_eq_true]
      simp only [hrec]
      omega
    · simp only [pollsFired, pollTick, if_true]
      simp only [h2, decide_false_eq_false]
      simp only [pollsFired_inactive]
      omega

/-! Claim theorems. -/

/-- Claim C1: a Staff identity whose assignment set is empty resolves to
`Denied` (never `Unrestricted`) for every resource and in every store
state, including the freshly initialized or unreachable store. -/
theorem staff_empty_assignments_denied (store : Store) (reachable : Bool)
    (ident : Identity) (res : Resource) (hrole : ident.role = Role.Staff)
    (h : getAssignments store ident.id = [] ∨ reachable = false) :
    resolveScope store reachable ident res = ScopePredicate.Denied ∧
      resolveScope store reachable ident res ≠ ScopePredicate.Unrestricted := by
  have hd : resolveScope store reachable ident res = ScopePredicate.Denied := by
    unfold resolveScope
    rw [hrole]
    rcases h with h | h
    · cases reachable
      · simp
      · simp [h]
    · simp [h]
  refine ⟨hd, ?_⟩
  rw [hd]
  intro hc
  exact ScopePredicate.noConfusion hc

/-- Witness for C1: a concrete Staff identity on the freshly initialized
store resolves to Denied. -/
theorem staff_empty_assignments_denied_witness :
    resolveScope initialStore true
        { id := 7, role := Role.Staff, faculty_id := none
        , department_id := some 1, student_key := none }
        Resource.Analytics = ScopePredicate.Denied ∧
      resolveScope initialStore true
        { id := 7, role := Role.Staff, faculty_id := none
        , department_id := some 1, student_key := none }
        Resource.Analytics ≠ ScopePredicate.Unrestricted :=
  staff_empty_assignments_denied initialStore true
    { id := 7, role := Role.Staff, faculty_id := none
    , department_id := some 1, student_key := none }
    Resource.Analytics rfl (Or.inl rfl)

/-- Claim C2: any (role, resource, permission) triple outside the static
Permission Registry table — unknown roles and resources included — yields
`allowed = false`; `allowed` is a total Bool-valued function, so no error
can reach the caller. -/
theorem allowed_fail_closed (r : Role) (x : Resource) (p : Permission)
    (h : PermissionFact.mk r x p ∉ permissionTable) :
    allowed r x p = false := by
  unfold allowed
  rw [List.any_eq_false]
  intro f hf
  simp only [decide_eq_true_eq]
  intro he
  exact h (he ▸ hf)

/-- Witness for C2: Student has no Delete grant on Users, and the lookup
returns false. -/
theorem allowed_fail_closed_witness :
    PermissionFact.mk Role.Student Resource.Users Permission.Delete ∉
        permissionTable ∧
      allowed Role.Student Resource.Users Permission.Delete = false :=
  ⟨by decide, allowed_fail_closed _ _ _ (by decide)⟩

/-- Claim C3: unless the acting identity is a HeadOfDepartment whose
department equals the department of the target staff identity,
`setAssignments` fails with Forbidden and the assignment set the caller
observes afterwards is unchanged. -/
theorem setAssignments_cross_department_forbidden (actor : Identity)
    (sid : Nat) (codes : List String) (store : Store)
    (h : ¬ (actor.role = Role.HeadOfDepartment ∧
        ∃ d, actor.department_id = some d ∧ deptOf store sid = some d)) :
    setAssignments actor sid codes store = Except.error ApiError.Forbidden ∧
      getAssignments (storeAfter (setAssignments actor sid codes store) store)
          sid = getAssignments store sid := by
  have hcm : canManage actor store sid = false := by
    rw [Bool.eq_false_iff]
    intro ht
    exact h ((canManage_iff actor store sid).mp ht)
  have he : setAssignments actor sid codes store =
      Except.error ApiError.Forbidden := by
    simp [setAssignments, hcm]
  refine ⟨he, ?_⟩
  rw [he]
  rfl

/-- Witness for C3: a cross-department mutation attempt (HOD of department
1 targeting staff of department 2) fails with Forbidden and changes
nothing. -/
theorem setAssignments_cross_department_forbidden_witness :
    setAssignments crossActor 5 ["CS999"] crossStore =
        Except.error ApiError.Forbidden ∧
      getAssignments
          (storeAfter (setAssignments crossActor 5 ["CS999"] crossStore)
            crossStore) 5 = getAssignments crossStore 5 :=
  setAssignments_cross_department_forbidden crossActor 5 ["CS999"] crossStore
    (by
      rintro ⟨-, d, hd, hd'⟩
      have h1 : (1 : Nat) = d := Option.some.inj hd
      have h2 : (2 : Nat) = d := Option.some.inj hd'
      omega)

/-- Claim C4: the audit write is fire-and-forget — whatever happens on the
network (delivery, refusal, the 3-second timeout), the primary operation
returns its own result unchanged and no audit error reaches the caller;
the issued request carries the short 3000 ms timeout. -/
theorem audit_write_failure_isolated {α : Type} (primary : Except JStr α)
    (token : Option JStr) (action resource : JStr) (resourceId : Option JStr)
    (net : NetOutcome) :
    primaryWithAudit primary token action resource resourceId net = primary ∧
      ∀ req, logAuditEvent token action resource resourceId = some req →
        req.timeoutMs = AUDIT_EVENT_TIMEOUT_MS ∧
          AUDIT_EVENT_TIMEOUT_MS = 3000 := by
  refine ⟨rfl, ?_⟩
  intro req hreq
  cases token with
  | none => exact Option.noConfusion hreq
  | some t =>
    simp only [logAuditEvent] at hreq
    split at hreq
    · exact Option.noConfusion hreq
    · injection hreq with h
      subst h
      exact ⟨rfl, rfl⟩

/-- Witness for C4: with the audit request timing out, a concrete primary
operation still returns its own result. -/
theorem audit_write_failure_isolated_witness :
    primaryWithAudit (Except.ok (42 : Nat)) (some "t".data) "page_view".data
        "Dashboard".data none NetOutcome.timedOut = Except.ok 42 ∧
      (AuditRequestConfig.mk
          (AuditPayload.mk "page_view".data "Dashboard".data none)
          3000).timeoutMs = AUDIT_EVENT_TIMEOUT_MS ∧
        AUDIT_EVENT_TIMEOUT_MS = 3000 :=
  ⟨(audit_write_failure_isolated (Except.ok 42) (some "t".data)
      "page_view".data "Dashboard".data none NetOutcome.timedOut).1,
    (audit_write_failure_isolated (Except.ok (42 : Nat)) (some "t".data)
        "page_view".data "Dashboard".data none NetOutcome.timedOut).2
      (AuditRequestConfig.mk
        (AuditPayload.mk "page_view".data "Dashboard".data none) 3000) rfl⟩

/-- Claim C5: the audit-log read path returns at most 500 records for every
requested limit; the client maps the `'all'` option to 500 and caps every
numeric request at 500. -/
theorem audit_query_limit_clamped :
    (∀ (records : List LogRow) (limit : Nat) (term : Option JStr),
        (auditQuery records limit term).length ≤ AUDIT_BACKEND_MAX_LIMIT) ∧
      requestLimit ClientLimit.all = Except.ok AUDIT_BACKEND_MAX_LIMIT ∧
      ∀ cl n, requestLimit cl = Except.ok n → n ≤ AUDIT_BACKEND_MAX_LIMIT := by
  refine ⟨?_, rfl, ?_⟩
  · intro records limit term
    have hlim : (records.take (min limit AUDIT_BACKEND_MAX_LIMIT)).length ≤
        AUDIT_BACKEND_MAX_LIMIT := by
      rw [List.length_take]
      calc min (min limit AUDIT_BACKEND_MAX_LIMIT) records.length
          ≤ min limit AUDIT_BACKEND_MAX_LIMIT := Nat.min_le_left _ _
        _ ≤ AUDIT_BACKEND_MAX_LIMIT := Nat.min_le_right _ _
    unfold auditQuery
    cases term with
    | none => exact hlim
    | some t =>
      calc (filteredLogs (records.take (min limit AUDIT_BACKEND_MAX_LIMIT))
              t).length
          ≤ (records.take (min limit AUDIT_BACKEND_MAX_LIMIT)).length :=
            filteredLogs_length_le _ _
        _ ≤ AUDIT_BACKEND_MAX_LIMIT := hlim
  · intro cl n h
    cases cl with
    | all =>
      injection h with h2
      subst h2
      exact Nat.le_refl _
    | num m =>
      simp only [requestLimit] at h
      by_cases h1 : m < 1
      · rw [if_pos h1] at h
        exact Except.noConfusion h
      · rw [if_neg h1] at h
        by_cases h2 : m > AUDIT_BACKEND_MAX_LIMIT
        · rw [if_pos h2] at h
          injection h with h3
          subst h3
          exact Nat.le_refl _
        · rw [if_neg h2] at h
          injection h with h3
          subst h3
          omega

/-- Witness for C5: a requested limit of 1000 is sent as 500, which the
backend accepts unclamped. -/
theorem audit_query_limit_clamped_witness :
    requestLimit (ClientLimit.num 1000) = Except.ok 500 ∧
      (500 : Nat) ≤ AUDIT_BACKEND_MAX_LIMIT :=
  ⟨rfl, audit_query_limit_clamped.2.2 (ClientLimit.num 1000) 500 rfl⟩

/-- Claim C6: for a non-blank search term, `filteredLogs` keeps exactly the
fetched rows on which the lowercased term occurs in the username, action,
resource, role or status field, in their original order; when no fetched
row matches, the result is empty. -/
theorem filteredLogs_characterization (logs : List LogRow) (searchTerm : JStr)
    (h : (trimJS searchTerm).isEmpty = false) :
    List.Sublist (filteredLogs logs searchTerm) logs ∧
      (∀ l, l ∈ filteredLogs logs searchTerm ↔
        l ∈ logs ∧ rowMatches (toLowerJS searchTerm) l = true) ∧
      ((∀ l ∈ logs, rowMatches (toLowerJS searchTerm) l = false) →
        filteredLogs logs searchTerm = []) := by
  have hne : filteredLogs logs searchTerm =
      logs.filter (rowMatches (toLowerJS searchTerm)) := by
    simp [filteredLogs, h]
  refine ⟨?_, ?_, ?_⟩
  · rw [hne]
    exact List.filter_sublist _
  · intro l
    rw [hne]
    exact List.mem_filter
  · intro hall
    rw [hne, List.filter_eq_nil_iff]
    intro a ha
    simp [hall a ha]

/-- Witness for C6: the term `xyz` matches no fetched demo row, and the
filter behaves as characterized. -/
theorem filteredLogs_characterization_witness :
    List.Sublist (filteredLogs demoLogs "xyz".data) demoLogs ∧
      (∀ l, l ∈ filteredLogs demoLogs "xyz".data ↔
        l ∈ demoLogs ∧ rowMatches (toLowerJS "xyz".data) l = true) ∧
      ((∀ l ∈ demoLogs, rowMatches (toLowerJS "xyz".data) l = false) →
        filteredLogs demoLogs "xyz".data = []) :=
  filteredLogs_characterization demoLogs "xyz".data (by decide)

/-- Claim C7: `listRecentRuns` returns at most `min limit 50` records and
preserves the most-recent-first order of the stored history; every limit
the UI offers is within the 50-record cap. -/
theorem listRecentRuns_capped (runs : List EtlRun) (limit : Nat)
    (hsorted : List.Pairwise (fun a b => b.start_time ≤ a.start_time) runs) :
    (listRecentRuns runs limit).length ≤ min limit ETL_RUNS_MAX ∧
      List.Pairwise (fun a b => b.start_time ≤ a.start_time)
        (listRecentRuns runs limit) ∧
      (ETL_RUNS_LIMIT_OPTIONS.all fun n => decide (n ≤ ETL_RUNS_MAX)) =
        true := by
  refine ⟨?_, ?_, by decide⟩
  · unfold listRecentRuns
    rw [List.length_take]
    exact Nat.min_le_left _ _
  · exact List.Pairwise.sublist (List.take_sublist _ _) hsorted

/-- Witness for C7: a request for 1000 runs against a concrete three-run
history returns at most `min 1000 50` records in order. -/
theorem listRecentRuns_capped_witness :
    (listRecentRuns demoRuns 1000).length ≤ min 1000 ETL_RUNS_MAX ∧
      List.Pairwise (fun a b => b.start_time ≤ a.start_time)
        (listRecentRuns demoRuns 1000) ∧
      (ETL_RUNS_LIMIT_OPTIONS.all fun n => decide (n ≤ ETL_RUNS_MAX)) =
        true :=
  listRecentRuns_capped demoRuns 1000 (by decide)

/-- Claim C8: an authorized `setAssignments` is a full replace — reading
back yields exactly the submitted codes — and calling it again with the
same codes returns the same store unchanged. -/
theorem setAssignments_replace_idempotent (actor : Identity) (sid : Nat)
    (codes : List String) (store : Store) (d : Nat)
    (hrole : actor.role = Role.HeadOfDepartment)
    (hdep : actor.department_id = some d)
    (htarget : deptOf store sid = some d) :
    ∃ store', setAssignments actor sid codes store = Except.ok store' ∧
      getAssignments store' sid = codes ∧
      setAssignments actor sid codes store' = Except.ok store' := by
  have hcm : canManage actor store sid = true :=
    (canManage_iff actor store sid).mpr ⟨hrole, d, hdep, htarget⟩
  refine ⟨{ store with assignments := replaceFor sid codes store.assignments },
    ?_, ?_, ?_⟩
  · simp [setAssignments, hcm]
  · exact getAssignments_replaceFor store sid codes
  · have hcm' : canManage actor
        { store with assignments := replaceFor sid codes store.assignments }
        sid = true :=
      (canManage_iff actor _ sid).mpr ⟨hrole, d, hdep, htarget⟩
    have hid : replaceFor sid codes
        ({ store with
            assignments := replaceFor sid codes store.assignments } :
          Store).assignments =
        ({ store with
            assignments := replaceFor sid codes store.assignments } :
          Store).assignments :=
      replaceFor_idem sid codes store.assignments
    simp only [setAssignments, hcm', if_true, hid]

/-- Witness for C8: replacing the assignments of staff 5 with two new codes
succeeds, reads back exactly, and is idempotent. -/
theorem setAssignments_replace_idempotent_witness :
    ∃ store', setAssignments hodActor 5 ["CS201", "CS202"] hodStore =
        Except.ok store' ∧
      getAssignments store' 5 = ["CS201", "CS202"] ∧
      setAssignments hodActor 5 ["CS201", "CS202"] store' =
        Except.ok store' :=
  setAssignments_replace_idempotent hodActor 5 ["CS201", "CS202"] hodStore 1
    rfl rfl rfl

/-- Claim C9: after Run ETL the page polls on the fixed 5-second interval
and issues exactly `min k 12` polls over any `k` firings — so twelve polls
(60 seconds) in total, and none after the twelfth. -/
theorem etl_polling_bounded :
    (∀ k : Nat, pollsFired afterTrigger k = min k REFRESH_AFTER_RUN_COUNT) ∧
      REFRESH_AFTER_RUN_COUNT = 12 ∧ REFRESH_INTERVAL_MS = 5000 ∧
      REFRESH_AFTER_RUN_COUNT * REFRESH_INTERVAL_MS = 60000 := by
  refine ⟨?_, rfl, rfl, rfl⟩
  intro k
  have h := pollsFired_active k 0 (by decide)
  simpa using h

/-- Claim C10: with no stored token, `logAuditEvent` is a silent no-op that
issues no request; when a request is issued, a null or empty resource id is
omitted from the payload. -/
theorem logAuditEvent_guard (action resource : JStr)
    (resourceId : Option JStr) :
    logAuditEvent none action resource resourceId = none ∧
      logAuditEvent (some []) action resource resourceId = none ∧
      ∀ tok req, logAuditEvent (some tok) action resource resourceId =
          some req →
        ((resourceId = none ∨ resourceId = some []) →
          req.payload.resource_id = none) ∧
        req.payload.action = action ∧ req.payload.resource = resource ∧
        req.timeoutMs = AUDIT_EVENT_TIMEOUT_MS := by
  refine ⟨rfl, rfl, ?_⟩
  intro tok req hreq
  simp only [logAuditEvent] at hreq
  split at hreq
  · exact Option.noConfusion hreq
  · injection hreq with h
    subst h
    refine ⟨?_, rfl, rfl, rfl⟩
    rintro (rfl | rfl)
    · rfl
    · rfl

/-- Witness for C10: no token means no request; with a token and an
empty-string resource id, the issued payload omits the resource id. -/
theorem logAuditEvent_guard_witness :
    logAuditEvent none "page_view".data "Analytics".data (some []) = none ∧
      (AuditRequestConfig.mk
          (AuditPayload.mk "page_view".data "Analytics".data none)
          3000).payload.resource_id = none :=
  ⟨(logAuditEvent_guard "page_view".data "Analytics".data (some [])).1,
    (((logAuditEvent_guard "page_view".data "Analytics".data
          (some [])).2.2 "tok".data
        (AuditRequestConfig.mk
          (AuditPayload.mk "page_view".data "Analytics".data none) 3000)
        rfl).1 (Or.inr rfl))⟩

end NextGen
